import Mathlib

/-!
Shallow embedding of `src/prquadtree.py` (a point-region quadtree) and
verification of its specification claims.

Modelling conventions:
* Python floats are modelled by exact rationals `ℚ`; the program only
  compares, adds, subtracts and halves coordinates, all of which are the
  ideal real operations (the spec disclaims float-overflow concerns).
  The k-nearest sort key `sqrt(dx^2+dy^2)` is modelled by the squared
  distance, which induces the same ordering since `sqrt` is strictly
  monotone on nonnegative reals.
* The Python object `PRQuadTree` with attributes `box`, `points`, and the
  four independent child attributes `nw`, `ne`, `sw`, `se` (each `None` or
  a node) is modelled by an inductive type with four independent
  `Option` children, so that a "partial" node (some but not all children
  present) is representable, exactly as in Python.
* A Python `AttributeError` crash (calling a method on `None`, possible
  only on partial nodes, which the code itself never creates) is modelled
  by an outer `Option`: `none` = the call raises.  `insert`'s Python body
  can also fall off the end and return the value `None` instead of a
  boolean; the returned value is therefore an inner `Option Bool`
  (`none` = the function returned `None`).
* Methods keep their Python names (`contains_point`, `intersect`,
  `insert`, `query_range`, `query_k_nearest`).
-/

/-- `Point` from `prquadtree.py` lines 10-24: an `(x, y)` coordinate pair. -/
structure Point where
  x : ℚ
  y : ℚ
deriving DecidableEq, Repr

/-- `Box` from `prquadtree.py` lines 33-48: a square given by its center and
half the side length.  `Box.__init__` stores its two arguments verbatim and
performs no validation whatsoever. -/
structure Box where
  center : Point
  half_size : ℚ
deriving DecidableEq, Repr

/-- The `Box` constructor (`Box.__init__`, lines 39-48): it only stores
`center` and `half_size` (the `float(...)` conversion is the identity in the
rational model).  There is no check of any kind on `half_size`. -/
def Box.init (center : Point) (half_size : ℚ) : Box :=
  { center := center, half_size := half_size }

/-- `Box.contains_point`, lines 50-67: inclusive containment in the closed
square. -/
def Box.contains_point (b : Box) (point : Point) : Bool :=
  let left_bound := b.center.x - b.half_size
  let right_bound := b.center.x + b.half_size
  let bottom_bound := b.center.y - b.half_size
  let top_bound := b.center.y + b.half_size
  decide (point.x ≥ left_bound) && decide (point.x ≤ right_bound) &&
    decide (point.y ≥ bottom_bound) && decide (point.y ≤ top_bound)

/-- `Box.intersect`, lines 69-95: strict axis-overlap test on the two
squares' corners. -/
def Box.intersect (b : Box) (other_box : Box) : Bool :=
  let aX1 := b.center.x - b.half_size
  let aY1 := b.center.y - b.half_size
  let aX2 := b.center.x + b.half_size
  let aY2 := b.center.y + b.half_size
  let bX1 := other_box.center.x - other_box.half_size
  let bY1 := other_box.center.y - other_box.half_size
  let bX2 := other_box.center.x + other_box.half_size
  let bY2 := other_box.center.y + other_box.half_size
  decide (aX1 < bX2) && decide (aX2 > bX1) && decide (aY1 < bY2) && decide (aY2 > bY1)

/-- The quadtree node (`PRQuadTree.__init__`, lines 105-117): a box, a list
of stored points, and four child slots that are each `None` (`none`) or a
node.  The four slots are independent fields, as in the Python object. -/
inductive PRQuadTree : Type where
  | mk (box : Box) (points : List Point) (nw ne sw se : Option PRQuadTree) : PRQuadTree

namespace PRQuadTree

/-- `PRQuadTree.QT_NODE_CAPACITY = 1` (line 103). -/
def QT_NODE_CAPACITY : Nat := 1

def box : PRQuadTree → Box
  | .mk b _ _ _ _ _ => b

def points : PRQuadTree → List Point
  | .mk _ ps _ _ _ _ => ps

def nw : PRQuadTree → Option PRQuadTree
  | .mk _ _ c _ _ _ => c

def ne : PRQuadTree → Option PRQuadTree
  | .mk _ _ _ c _ _ => c

def sw : PRQuadTree → Option PRQuadTree
  | .mk _ _ _ _ c _ => c

def se : PRQuadTree → Option PRQuadTree
  | .mk _ _ _ _ _ c => c

/-- `PRQuadTree.__init__(box)`, lines 105-117: a fresh leaf with no points
and all four children `None`. -/
def init (b : Box) : PRQuadTree :=
  .mk b [] none none none none

end PRQuadTree

/-- The `nw` child box built by `PRQuadTree._subdivide` (lines 222-228):
half the half-size, center moved up-left by the new half-size. -/
def Box.quarterNW (b : Box) : Box :=
  let hs := b.half_size / 2
  { center := { x := b.center.x - hs, y := b.center.y + hs }, half_size := hs }

/-- The `ne` child box built by `_subdivide` (lines 231-235). -/
def Box.quarterNE (b : Box) : Box :=
  let hs := b.half_size / 2
  { center := { x := b.center.x + hs, y := b.center.y + hs }, half_size := hs }

/-- The `sw` child box built by `_subdivide` (lines 238-242). -/
def Box.quarterSW (b : Box) : Box :=
  let hs := b.half_size / 2
  { center := { x := b.center.x - hs, y := b.center.y - hs }, half_size := hs }

/-- The `se` child box built by `_subdivide` (lines 245-249). -/
def Box.quarterSE (b : Box) : Box :=
  let hs := b.half_size / 2
  { center := { x := b.center.x + hs, y := b.center.y - hs }, half_size := hs }

namespace PRQuadTree

mutual

/-- `PRQuadTree.insert(x, y)`, lines 119-148.  Returns the updated tree
together with the Python return value: `some true` / `some false` for the
explicit `return True` / `return False`, inner `none` when the Python body
falls off the end (returning the value `None`, which happens only when all
four children reject the point).  The outer `Option` is `none` when Python
would raise `AttributeError` (delegating to a `None` child on a partial
node with `nw` present; such nodes are never produced by the code itself).

The Python flow: reject if outside `box`; append if below capacity;
otherwise `_subdivide()` when `nw` is `None` (lines 217-250, replacing all
four children with fresh empty leaves) and delegate to `nw`, `ne`, `sw`,
`se` in order, returning `True` on the first truthy child result.  In the
subdivide case the four delegated calls land on just-created empty leaves,
for which `insert` reduces to the containment test followed by an append;
that reduct is written out here so the recursion stays structural. -/
def insert : PRQuadTree → ℚ → ℚ → Option (PRQuadTree × Option Bool)
  | .mk b ps cnw cne csw cse, x, y =>
    let point : Point := { x := x, y := y }
    if !(b.contains_point point) then
      -- point does not belong to this box
      some (.mk b ps cnw cne csw cse, some false)
    else if ps.length < QT_NODE_CAPACITY then
      some (.mk b (ps ++ [point]) cnw cne csw cse, some true)
    else
      match cnw with
      | none =>
        -- self.nw == None: _subdivide(), then delegate to the four fresh
        -- empty leaves in order; a fresh leaf accepts iff its box contains
        -- the point (its point list is empty, below capacity).
        if b.quarterNW.contains_point point then
          some (.mk b ps (some (.mk b.quarterNW [point] none none none none))
            (some (init b.quarterNE)) (some (init b.quarterSW))
            (some (init b.quarterSE)), some true)
        else if b.quarterNE.contains_point point then
          some (.mk b ps (some (init b.quarterNW))
            (some (.mk b.quarterNE [point] none none none none))
            (some (init b.quarterSW)) (some (init b.quarterSE)), some true)
        else if b.quarterSW.contains_point point then
          some (.mk b ps (some (init b.quarterNW)) (some (init b.quarterNE))
            (some (.mk b.quarterSW [point] none none none none))
            (some (init b.quarterSE)), some true)
        else if b.quarterSE.contains_point point then
          some (.mk b ps (some (init b.quarterNW)) (some (init b.quarterNE))
            (some (init b.quarterSW))
            (some (.mk b.quarterSE [point] none none none none)), some true)
        else
          -- all four fresh children rejected: Python returns None
          some (.mk b ps (some (init b.quarterNW)) (some (init b.quarterNE))
            (some (init b.quarterSW)) (some (init b.quarterSE)), none)
      | some tnw =>
        match insert tnw x y with
        | none => none
        | some (tnw', rnw) =>
          if rnw = some true then
            some (.mk b ps (some tnw') cne csw cse, some true)
          else
            match insertChild cne x y with
            | none => none
            | some (tne', rne) =>
              if rne = some true then
                some (.mk b ps (some tnw') (some tne') csw cse, some true)
              else
                match insertChild csw x y with
                | none => none
                | some (tsw', rsw) =>
                  if rsw = some true then
                    some (.mk b ps (some tnw') (some tne') (some tsw') cse,
                      some true)
                  else
                    match insertChild cse x y with
                    | none => none
                    | some (tse', rse) =>
                      if rse = some true then
                        some (.mk b ps (some tnw') (some tne') (some tsw')
                          (some tse'), some true)
                      else
                        -- fall through the Python body: return None
                        some (.mk b ps (some tnw') (some tne') (some tsw')
                          (some tse'), none)

/-- `self.<child>.insert(x, y)` on an optional child slot: delegating to an
absent child is the Python `AttributeError` (`none`). -/
def insertChild : Option PRQuadTree → ℚ → ℚ → Option (PRQuadTree × Option Bool)
  | none, _, _ => none
  | some t, x, y => insert t x y

end

mutual

/-- `PRQuadTree.query_range(rng)`, lines 150-182.  `none` models the
`AttributeError` raised on a partial node (`nw` present, a later child
`None`).  Python only extends `final_points` when a child result is
nonempty, which is the same as always appending. -/
def query_range : PRQuadTree → Box → Option (List Point)
  | .mk b ps cnw cne csw cse, rng =>
    if !(b.intersect rng) then
      some []
    else
      let final_points := ps.filter fun point => rng.contains_point point
      match cnw with
      | none => some final_points
      | some tnw =>
        match query_range tnw rng with
        | none => none
        | some nw_q =>
          match queryChild cne rng with
          | none => none
          | some ne_q =>
            match queryChild csw rng with
            | none => none
            | some sw_q =>
              match queryChild cse rng with
              | none => none
              | some se_q =>
                some (final_points ++ nw_q ++ ne_q ++ sw_q ++ se_q)

/-- `self.<child>.query_range(rng)` on an optional child slot: querying an
absent child is the Python `AttributeError` (`none`). -/
def queryChild : Option PRQuadTree → Box → Option (List Point)
  | none, _ => none
  | some t, rng => query_range t rng

end

/-- The square of the `_sort_key` of `query_k_nearest` (line 207):
`sqrt((point.x-p.x)^2 + (p.y-point.y)^2)` squared.  `sqrt` is strictly
monotone on nonnegative reals, so ordering by the squared key is the
ordering by the Euclidean key. -/
def sort_key_sq (point : Point) (p : Point) : ℚ :=
  (point.x - p.x) ^ 2 + (p.y - point.y) ^ 2

/-- The widening loop of `query_k_nearest` (lines 208-213) over the list of
remaining exponents (`for i in range(1, 20)` starts from `[1, …, 19]`):
query a box of half-size `2^i` around `point`; stop as soon as at least `k`
points come back, or when the exponents run out. -/
def widenScan (t : PRQuadTree) (point : Point) (k : Nat) : List Nat → Option (List Point)
  | [] => some []
  | [i] => t.query_range (Box.init point (2 ^ i))
  | i :: j :: rest =>
    match t.query_range (Box.init point (2 ^ i)) with
    | none => none
    | some nearby =>
      if k ≤ nearby.length then some nearby
      else widenScan t point k (j :: rest)

/-- `PRQuadTree.query_k_nearest(point, k)`, lines 184-214: run the widening
loop, then `sorted(nearby, key=_sort_key)[:k]` — a stable sort by distance
to `point` followed by taking the first `k`. -/
def query_k_nearest (t : PRQuadTree) (point : Point) (k : Nat) : Option (List Point) :=
  match widenScan t point k (List.range' 1 19) with
  | none => none
  | some nearby =>
    some ((nearby.mergeSort fun a b => sort_key_sq point a ≤ sort_key_sq point b).take k)

mutual

/-- All points stored in a tree, in the preorder used by
`print_all_points` (lines 252-273) and by a full-box `query_range`: the
node's own points, then the `nw`, `ne`, `sw`, `se` subtrees. -/
def allPoints : PRQuadTree → List Point
  | .mk _ ps cnw cne csw cse =>
    ps ++ allPointsO cnw ++ allPointsO cne ++ allPointsO csw ++ allPointsO cse

/-- The points stored under an optional child slot. -/
def allPointsO : Option PRQuadTree → List Point
  | none => []
  | some t => allPoints t

end

mutual

/-- Every node of the tree (the node itself and, recursively, the nodes of
whichever children are present). -/
def allNodes : PRQuadTree → List PRQuadTree
  | .mk b ps cnw cne csw cse =>
    .mk b ps cnw cne csw cse
      :: (allNodesO cnw ++ allNodesO cne ++ allNodesO csw ++ allNodesO cse)

/-- The nodes under an optional child slot. -/
def allNodesO : Option PRQuadTree → List PRQuadTree
  | none => []
  | some t => allNodes t

end

/-- The leaf/internal discipline of the Python code: children all absent or
all present. -/
def childrenShape (cnw cne csw cse : Option PRQuadTree) : Bool :=
  (cnw.isNone && cne.isNone && csw.isNone && cse.isNone) ||
    (cnw.isSome && cne.isSome && csw.isSome && cse.isSome)

mutual

/-- Structural well-formedness of the trees the code actually builds:
positive box half-size, at most `QT_NODE_CAPACITY` points per node, every
local point inside the node's box, children all absent or all present, and
each present child carrying exactly its `_subdivide` quarter box and
recursively well-formed. -/
def wf : PRQuadTree → Bool
  | .mk b ps cnw cne csw cse =>
    decide (0 < b.half_size) && decide (ps.length ≤ QT_NODE_CAPACITY) &&
      ps.all (fun p => b.contains_point p) &&
      childrenShape cnw cne csw cse &&
      wfO b.quarterNW cnw && wfO b.quarterNE cne &&
      wfO b.quarterSW csw && wfO b.quarterSE cse

/-- Well-formedness of an optional child slot against its expected quarter
box: an absent child is fine; a present one must carry exactly the expected
box and be well-formed. -/
def wfO : Box → Option PRQuadTree → Bool
  | _, none => true
  | q, some t => decide (t.box = q) && wf t

end

end PRQuadTree

namespace PRQuadTree

/-- Iterated insertion through the public API: feed a list of points to
`insert` one after the other (left to right), collecting the returned
statuses; `none` if some insertion raises. -/
def insertSeq : PRQuadTree → List Point → Option (PRQuadTree × List (Option Bool))
  | t, [] => some (t, [])
  | t, p :: rest =>
    match insert t p.x p.y with
    | none => none
    | some (t2, r) =>
      match insertSeq t2 rest with
      | none => none
      | some (t3, rs) => some (t3, r :: rs)

end PRQuadTree

/-- Nestedness of one box inside another, stated on the side bounds. -/
def Box.insideOf (inner outer : Box) : Prop :=
  outer.center.x - outer.half_size ≤ inner.center.x - inner.half_size ∧
    inner.center.x + inner.half_size ≤ outer.center.x + outer.half_size ∧
    outer.center.y - outer.half_size ≤ inner.center.y - inner.half_size ∧
    inner.center.y + inner.half_size ≤ outer.center.y + outer.half_size

/-! ### Basic characterizations of the geometric predicates -/

theorem Box.contains_point_iff (b : Box) (p : Point) :
    b.contains_point p = true ↔
      b.center.x - b.half_size ≤ p.x ∧ p.x ≤ b.center.x + b.half_size ∧
        b.center.y - b.half_size ≤ p.y ∧ p.y ≤ b.center.y + b.half_size := by
  simp [Box.contains_point, ge_iff_le, and_assoc]

theorem Box.intersect_iff (a b : Box) :
    a.intersect b = true ↔
      a.center.x - a.half_size < b.center.x + b.half_size ∧
        b.center.x - b.half_size < a.center.x + a.half_size ∧
        a.center.y - a.half_size < b.center.y + b.half_size ∧
        b.center.y - b.half_size < a.center.y + a.half_size := by
  simp [Box.intersect, gt_iff_lt, and_assoc]

/-- The four `_subdivide` quarter boxes jointly cover the parent box. -/
theorem Box.quarter_cover {b : Box} {p : Point} (h : b.contains_point p = true) :
    b.quarterNW.contains_point p = true ∨ b.quarterNE.contains_point p = true ∨
      b.quarterSW.contains_point p = true ∨ b.quarterSE.contains_point p = true := by
  rw [Box.contains_point_iff] at h
  obtain ⟨h1, h2, h3, h4⟩ := h
  rcases le_total p.x b.center.x with hx | hx <;> rcases le_total p.y b.center.y with hy | hy
  · refine Or.inr (Or.inr (Or.inl ?_))
    rw [Box.quarterSW, Box.contains_point_iff]
    refine ⟨by dsimp; linarith, by dsimp; linarith, by dsimp; linarith, by dsimp; linarith⟩
  · refine Or.inl ?_
    rw [Box.quarterNW, Box.contains_point_iff]
    refine ⟨by dsimp; linarith, by dsimp; linarith, by dsimp; linarith, by dsimp; linarith⟩
  · refine Or.inr (Or.inr (Or.inr ?_))
    rw [Box.quarterSE, Box.contains_point_iff]
    refine ⟨by dsimp; linarith, by dsimp; linarith, by dsimp; linarith, by dsimp; linarith⟩
  · refine Or.inr (Or.inl ?_)
    rw [Box.quarterNE, Box.contains_point_iff]
    refine ⟨by dsimp; linarith, by dsimp; linarith, by dsimp; linarith, by dsimp; linarith⟩

theorem Box.insideOf_refl (b : Box) : b.insideOf b :=
  ⟨le_refl _, le_refl _, le_refl _, le_refl _⟩

theorem Box.insideOf_trans {a b c : Box} (h1 : a.insideOf b) (h2 : b.insideOf c) :
    a.insideOf c := by
  obtain ⟨p1, p2, p3, p4⟩ := h1
  obtain ⟨q1, q2, q3, q4⟩ := h2
  exact ⟨by linarith, by linarith, by linarith, by linarith⟩

theorem Box.quarterNW_insideOf (b : Box) (h : 0 ≤ b.half_size) :
    b.quarterNW.insideOf b := by
  refine ⟨?_, ?_, ?_, ?_⟩ <;> (rw [Box.quarterNW]; dsimp; linarith)

theorem Box.quarterNE_insideOf (b : Box) (h : 0 ≤ b.half_size) :
    b.quarterNE.insideOf b := by
  refine ⟨?_, ?_, ?_, ?_⟩ <;> (rw [Box.quarterNE]; dsimp; linarith)

theorem Box.quarterSW_insideOf (b : Box) (h : 0 ≤ b.half_size) :
    b.quarterSW.insideOf b := by
  refine ⟨?_, ?_, ?_, ?_⟩ <;> (rw [Box.quarterSW]; dsimp; linarith)

theorem Box.quarterSE_insideOf (b : Box) (h : 0 ≤ b.half_size) :
    b.quarterSE.insideOf b := by
  refine ⟨?_, ?_, ?_, ?_⟩ <;> (rw [Box.quarterSE]; dsimp; linarith)

theorem Box.contains_of_insideOf {inner outer : Box} {p : Point}
    (hio : inner.insideOf outer) (hc : inner.contains_point p = true) :
    outer.contains_point p = true := by
  rw [Box.contains_point_iff] at hc ⊢
  obtain ⟨q1, q2, q3, q4⟩ := hio
  obtain ⟨h1, h2, h3, h4⟩ := hc
  exact ⟨by linarith, by linarith, by linarith, by linarith⟩

theorem Box.intersect_of_insideOf {inner outer : Box}
    (hpos : 0 < inner.half_size) (hio : inner.insideOf outer) :
    inner.intersect outer = true := by
  rw [Box.intersect_iff]
  obtain ⟨q1, q2, q3, q4⟩ := hio
  exact ⟨by linarith, by linarith, by linarith, by linarith⟩

theorem Box.quarterNW_half_size (b : Box) : b.quarterNW.half_size = b.half_size / 2 := rfl

theorem Box.quarterNE_half_size (b : Box) : b.quarterNE.half_size = b.half_size / 2 := rfl

theorem Box.quarterSW_half_size (b : Box) : b.quarterSW.half_size = b.half_size / 2 := rfl

theorem Box.quarterSE_half_size (b : Box) : b.quarterSE.half_size = b.half_size / 2 := rfl

/-! ### Characterizing well-formedness -/

namespace PRQuadTree

theorem wf_leaf_iff (b : Box) (ps : List Point) :
    wf (.mk b ps none none none none) = true ↔
      0 < b.half_size ∧ ps.length ≤ QT_NODE_CAPACITY ∧
        ∀ p ∈ ps, b.contains_point p = true := by
  simp [wf, wfO, childrenShape, List.all_eq_true, and_assoc]

theorem wf_node_iff (b : Box) (ps : List Point) (tnw tne tsw tse : PRQuadTree) :
    wf (.mk b ps (some tnw) (some tne) (some tsw) (some tse)) = true ↔
      0 < b.half_size ∧ ps.length ≤ QT_NODE_CAPACITY ∧
        (∀ p ∈ ps, b.contains_point p = true) ∧
        tnw.box = b.quarterNW ∧ tne.box = b.quarterNE ∧
        tsw.box = b.quarterSW ∧ tse.box = b.quarterSE ∧
        wf tnw = true ∧ wf tne = true ∧ wf tsw = true ∧ wf tse = true := by
  simp only [wf, wfO, childrenShape, Option.isSome_some, Option.isNone_some,
    Bool.and_eq_true, Bool.or_eq_true, decide_eq_true_eq, List.all_eq_true,
    and_assoc]
  tauto

theorem wf_nw_none (b : Box) (ps : List Point) (cne csw cse : Option PRQuadTree)
    (hw : wf (.mk b ps none cne csw cse) = true) :
    cne = none ∧ csw = none ∧ cse = none := by
  rcases cne <;> rcases csw <;> rcases cse <;> simp_all [wf, wfO, childrenShape]

set_option maxHeartbeats 4000000 in
/-- One-step unfolding of `query_range` (its defining equation, restated so
later proofs can rewrite with it cheaply). -/
theorem query_range_eq (b : Box) (ps : List Point)
    (cnw cne csw cse : Option PRQuadTree) (rng : Box) :
    query_range (.mk b ps cnw cne csw cse) rng =
      (if !(b.intersect rng) then
        some []
      else
        let final_points := ps.filter fun point => rng.contains_point point
        match cnw with
        | none => some final_points
        | some tnw =>
          match query_range tnw rng with
          | none => none
          | some nw_q =>
            match queryChild cne rng with
            | none => none
            | some ne_q =>
              match queryChild csw rng with
              | none => none
              | some sw_q =>
                match queryChild cse rng with
                | none => none
                | some se_q =>
                  some (final_points ++ nw_q ++ ne_q ++ sw_q ++ se_q)) := by
  rw [query_range]

theorem query_range_not_intersect (b : Box) (ps : List Point)
    (cnw cne csw cse : Option PRQuadTree) {rng : Box}
    (hi : b.intersect rng = false) :
    query_range (.mk b ps cnw cne csw cse) rng = some [] := by
  rw [query_range_eq, hi]
  rfl

theorem query_range_leaf (b : Box) (ps : List Point)
    (cne csw cse : Option PRQuadTree) {rng : Box} (hi : b.intersect rng = true) :
    query_range (.mk b ps none cne csw cse) rng =
      some (ps.filter fun point => rng.contains_point point) := by
  rw [query_range_eq, hi]
  rfl

theorem query_range_node (b : Box) (ps : List Point) {tnw tne tsw tse : PRQuadTree}
    {rng : Box} {lnw lne lsw lse : List Point} (hi : b.intersect rng = true)
    (enw : tnw.query_range rng = some lnw) (ene : tne.query_range rng = some lne)
    (esw : tsw.query_range rng = some lsw) (ese : tse.query_range rng = some lse) :
    query_range (.mk b ps (some tnw) (some tne) (some tsw) (some tse)) rng =
      some ((ps.filter fun point => rng.contains_point point)
        ++ lnw ++ lne ++ lsw ++ lse) := by
  rw [query_range_eq, hi]
  simp only [queryChild, Bool.not_true, Bool.false_eq_true, if_false, enw, ene, esw, ese]

/-- Totality of `query_range` on well-formed trees: no `AttributeError`. -/
theorem query_range_some : ∀ (t : PRQuadTree) (rng : Box), wf t = true →
    ∃ l, t.query_range rng = some l
  | .mk b ps none cne csw cse, rng, hw => by
    cases hi : b.intersect rng
    · exact ⟨[], query_range_not_intersect b ps none cne csw cse hi⟩
    · exact ⟨_, query_range_leaf b ps cne csw cse hi⟩
  | .mk b ps (some tnw) (some tne) (some tsw) (some tse), rng, hw => by
    rw [wf_node_iff] at hw
    obtain ⟨-, -, -, -, -, -, -, hnw, hne, hsw, hse⟩ := hw
    obtain ⟨lnw, enw⟩ := query_range_some tnw rng hnw
    obtain ⟨lne, ene⟩ := query_range_some tne rng hne
    obtain ⟨lsw, esw⟩ := query_range_some tsw rng hsw
    obtain ⟨lse, ese⟩ := query_range_some tse rng hse
    cases hi : b.intersect rng
    · exact ⟨[], query_range_not_intersect _ _ _ _ _ _ hi⟩
    · exact ⟨_, query_range_node b ps hi enw ene esw ese⟩
  | .mk b ps (some _) none csw cse, rng, hw => by
    rcases csw <;> rcases cse <;> simp [wf, wfO, childrenShape] at hw
  | .mk b ps (some _) (some _) none cse, rng, hw => by
    rcases cse <;> simp [wf, wfO, childrenShape] at hw
  | .mk b ps (some _) (some _) (some _) none, rng, hw => by
    simp [wf, wfO, childrenShape] at hw

end PRQuadTree

namespace PRQuadTree

set_option maxHeartbeats 6000000 in
/-- One-step unfolding of `insert` (its defining equation, restated so later
proofs can rewrite with it cheaply). -/
theorem insert_eq (b : Box) (ps : List Point)
    (cnw cne csw cse : Option PRQuadTree) (x y : ℚ) :
    insert (.mk b ps cnw cne csw cse) x y =
      (let point : Point := { x := x, y := y }
      if !(b.contains_point point) then
        some (.mk b ps cnw cne csw cse, some false)
      else if ps.length < QT_NODE_CAPACITY then
        some (.mk b (ps ++ [point]) cnw cne csw cse, some true)
      else
        match cnw with
        | none =>
          if b.quarterNW.contains_point point then
            some (.mk b ps (some (.mk b.quarterNW [point] none none none none))
              (some (init b.quarterNE)) (some (init b.quarterSW))
              (some (init b.quarterSE)), some true)
          else if b.quarterNE.contains_point point then
            some (.mk b ps (some (init b.quarterNW))
              (some (.mk b.quarterNE [point] none none none none))
              (some (init b.quarterSW)) (some (init b.quarterSE)), some true)
          else if b.quarterSW.contains_point point then
            some (.mk b ps (some (init b.quarterNW)) (some (init b.quarterNE))
              (some (.mk b.quarterSW [point] none none none none))
              (some (init b.quarterSE)), some true)
          else if b.quarterSE.contains_point point then
            some (.mk b ps (some (init b.quarterNW)) (some (init b.quarterNE))
              (some (init b.quarterSW))
              (some (.mk b.quarterSE [point] none none none none)), some true)
          else
            some (.mk b ps (some (init b.quarterNW)) (some (init b.quarterNE))
              (some (init b.quarterSW)) (some (init b.quarterSE)), none)
        | some tnw =>
          match insert tnw x y with
          | none => none
          | some (tnw', rnw) =>
            if rnw = some true then
              some (.mk b ps (some tnw') cne csw cse, some true)
            else
              match insertChild cne x y with
              | none => none
              | some (tne', rne) =>
                if rne = some true then
                  some (.mk b ps (some tnw') (some tne') csw cse, some true)
                else
                  match insertChild csw x y with
                  | none => none
                  | some (tsw', rsw) =>
                    if rsw = some true then
                      some (.mk b ps (some tnw') (some tne') (some tsw') cse,
                        some true)
                    else
                      match insertChild cse x y with
                      | none => none
                      | some (tse', rse) =>
                        if rse = some true then
                          some (.mk b ps (some tnw') (some tne') (some tsw')
                            (some tse'), some true)
                        else
                          some (.mk b ps (some tnw') (some tne') (some tsw')
                            (some tse'), none)) := by
  rw [insert.eq_def]

theorem insert_not_contains (b : Box) (ps : List Point)
    (cnw cne csw cse : Option PRQuadTree) {x y : ℚ}
    (hc : b.contains_point { x := x, y := y } = false) :
    insert (.mk b ps cnw cne csw cse) x y =
      some (.mk b ps cnw cne csw cse, some false) := by
  rw [insert_eq]
  simp only [hc, Bool.not_false, if_true]

theorem insert_below_capacity (b : Box) (ps : List Point)
    (cnw cne csw cse : Option PRQuadTree) {x y : ℚ}
    (hc : b.contains_point { x := x, y := y } = true)
    (hlen : ps.length < QT_NODE_CAPACITY) :
    insert (.mk b ps cnw cne csw cse) x y =
      some (.mk b (ps ++ [{ x := x, y := y }]) cnw cne csw cse, some true) := by
  rw [insert_eq]
  simp only [hc, Bool.not_true, Bool.false_eq_true, if_false, hlen, if_true]

/-! Branch lemmas for `insert` on a full leaf (the `_subdivide` path):
one lemma per arm of the delegation chain over the four fresh children. -/

theorem insert_subdivide_NW (b : Box) (ps : List Point)
    (cne csw cse : Option PRQuadTree) {x y : ℚ}
    (hc : b.contains_point { x := x, y := y } = true)
    (hlen : ¬ ps.length < QT_NODE_CAPACITY)
    (q1 : b.quarterNW.contains_point { x := x, y := y } = true) :
    insert (.mk b ps none cne csw cse) x y =
      some (.mk b ps
        (some (.mk b.quarterNW [{ x := x, y := y }] none none none none))
        (some (init b.quarterNE)) (some (init b.quarterSW))
        (some (init b.quarterSE)), some true) := by
  rw [insert_eq]
  simp only [hc, Bool.not_true, Bool.false_eq_true, if_false, hlen, q1, if_true]

theorem insert_subdivide_NE (b : Box) (ps : List Point)
    (cne csw cse : Option PRQuadTree) {x y : ℚ}
    (hc : b.contains_point { x := x, y := y } = true)
    (hlen : ¬ ps.length < QT_NODE_CAPACITY)
    (q1 : b.quarterNW.contains_point { x := x, y := y } = false)
    (q2 : b.quarterNE.contains_point { x := x, y := y } = true) :
    insert (.mk b ps none cne csw cse) x y =
      some (.mk b ps (some (init b.quarterNW))
        (some (.mk b.quarterNE [{ x := x, y := y }] none none none none))
        (some (init b.quarterSW)) (some (init b.quarterSE)), some true) := by
  rw [insert_eq]
  simp only [hc, Bool.not_true, Bool.false_eq_true, if_false, hlen, q1, q2, if_true]

theorem insert_subdivide_SW (b : Box) (ps : List Point)
    (cne csw cse : Option PRQuadTree) {x y : ℚ}
    (hc : b.contains_point { x := x, y := y } = true)
    (hlen : ¬ ps.length < QT_NODE_CAPACITY)
    (q1 : b.quarterNW.contains_point { x := x, y := y } = false)
    (q2 : b.quarterNE.contains_point { x := x, y := y } = false)
    (q3 : b.quarterSW.contains_point { x := x, y := y } = true) :
    insert (.mk b ps none cne csw cse) x y =
      some (.mk b ps (some (init b.quarterNW)) (some (init b.quarterNE))
        (some (.mk b.quarterSW [{ x := x, y := y }] none none none none))
        (some (init b.quarterSE)), some true) := by
  rw [insert_eq]
  simp only [hc, Bool.not_true, Bool.false_eq_true, if_false, hlen, q1, q2, q3, if_true]

theorem insert_subdivide_SE (b : Box) (ps : List Point)
    (cne csw cse : Option PRQuadTree) {x y : ℚ}
    (hc : b.contains_point { x := x, y := y } = true)
    (hlen : ¬ ps.length < QT_NODE_CAPACITY)
    (q1 : b.quarterNW.contains_point { x := x, y := y } = false)
    (q2 : b.quarterNE.contains_point { x := x, y := y } = false)
    (q3 : b.quarterSW.contains_point { x := x, y := y } = false)
    (q4 : b.quarterSE.contains_point { x := x, y := y } = true) :
    insert (.mk b ps none cne csw cse) x y =
      some (.mk b ps (some (init b.quarterNW)) (some (init b.quarterNE))
        (some (init b.quarterSW))
        (some (.mk b.quarterSE [{ x := x, y := y }] none none none none)),
        some true) := by
  rw [insert_eq]
  simp only [hc, Bool.not_true, Bool.false_eq_true, if_false, hlen, q1, q2, q3, q4,
    if_true]

/-! Branch lemmas for `insert` on a full internal node (the delegation
chain over the existing children, in `nw`, `ne`, `sw`, `se` order). -/

theorem insert_delegate_NW (b : Box) (ps : List Point) {tnw : PRQuadTree}
    (cne csw cse : Option PRQuadTree) {x y : ℚ} {tnw2 : PRQuadTree}
    (hc : b.contains_point { x := x, y := y } = true)
    (hlen : ¬ ps.length < QT_NODE_CAPACITY)
    (e1 : insert tnw x y = some (tnw2, some true)) :
    insert (.mk b ps (some tnw) cne csw cse) x y =
      some (.mk b ps (some tnw2) cne csw cse, some true) := by
  rw [insert_eq]
  simp only [hc, Bool.not_true, Bool.false_eq_true, if_false, hlen, e1, if_true]

theorem insert_delegate_NE (b : Box) (ps : List Point) {tnw tne : PRQuadTree}
    (csw cse : Option PRQuadTree) {x y : ℚ} {tnw2 tne2 : PRQuadTree}
    {r1 : Option Bool}
    (hc : b.contains_point { x := x, y := y } = true)
    (hlen : ¬ ps.length < QT_NODE_CAPACITY)
    (e1 : insert tnw x y = some (tnw2, r1)) (hr1 : ¬ r1 = some true)
    (e2 : insert tne x y = some (tne2, some true)) :
    insert (.mk b ps (some tnw) (some tne) csw cse) x y =
      some (.mk b ps (some tnw2) (some tne2) csw cse, some true) := by
  rw [insert_eq]
  simp only [hc, Bool.not_true, Bool.false_eq_true, if_false, hlen, e1, hr1,
    insertChild, e2, if_true]

theorem insert_delegate_SW (b : Box) (ps : List Point) {tnw tne tsw : PRQuadTree}
    (cse : Option PRQuadTree) {x y : ℚ} {tnw2 tne2 tsw2 : PRQuadTree}
    {r1 r2 : Option Bool}
    (hc : b.contains_point { x := x, y := y } = true)
    (hlen : ¬ ps.length < QT_NODE_CAPACITY)
    (e1 : insert tnw x y = some (tnw2, r1)) (hr1 : ¬ r1 = some true)
    (e2 : insert tne x y = some (tne2, r2)) (hr2 : ¬ r2 = some true)
    (e3 : insert tsw x y = some (tsw2, some true)) :
    insert (.mk b ps (some tnw) (some tne) (some tsw) cse) x y =
      some (.mk b ps (some tnw2) (some tne2) (some tsw2) cse, some true) := by
  rw [insert_eq]
  simp only [hc, Bool.not_true, Bool.false_eq_true, if_false, hlen, e1, hr1,
    insertChild, e2, hr2, e3, if_true]

theorem insert_delegate_SE (b : Box) (ps : List Point)
    {tnw tne tsw tse : PRQuadTree} {x y : ℚ} {tnw2 tne2 tsw2 tse2 : PRQuadTree}
    {r1 r2 r3 : Option Bool}
    (hc : b.contains_point { x := x, y := y } = true)
    (hlen : ¬ ps.length < QT_NODE_CAPACITY)
    (e1 : insert tnw x y = some (tnw2, r1)) (hr1 : ¬ r1 = some true)
    (e2 : insert tne x y = some (tne2, r2)) (hr2 : ¬ r2 = some true)
    (e3 : insert tsw x y = some (tsw2, r3)) (hr3 : ¬ r3 = some true)
    (e4 : insert tse x y = some (tse2, some true)) :
    insert (.mk b ps (some tnw) (some tne) (some tsw) (some tse)) x y =
      some (.mk b ps (some tnw2) (some tne2) (some tsw2) (some tse2),
        some true) := by
  rw [insert_eq]
  simp only [hc, Bool.not_true, Bool.false_eq_true, if_false, hlen, e1, hr1,
    insertChild, e2, hr2, e3, hr3, e4, if_true]

/-- `wf` holds for a fresh empty node over a box of positive half-size. -/
theorem wf_init {b : Box} (h : 0 < b.half_size) : wf (init b) = true := by
  rw [init, wf_leaf_iff]
  exact ⟨h, by simp [QT_NODE_CAPACITY], by simp⟩

theorem allPoints_leaf (b : Box) (ps : List Point) :
    allPoints (.mk b ps none none none none) = ps := by
  simp [allPoints, allPointsO]

theorem allPoints_node (b : Box) (ps : List Point) (tnw tne tsw tse : PRQuadTree) :
    allPoints (.mk b ps (some tnw) (some tne) (some tsw) (some tse)) =
      ps ++ allPoints tnw ++ allPoints tne ++ allPoints tsw ++ allPoints tse := by
  simp [allPoints, allPointsO]

/-- Pulling a distinguished new element out of a right append factor. -/
theorem perm_pull {p : Point} {l r r2 : List Point} (h : r2.Perm (p :: r)) :
    (l ++ r2).Perm (p :: (l ++ r)) :=
  (List.Perm.append_left l h).trans List.perm_middle

/-- Master lemma for `insert` on well-formed trees: a point outside the
node's box is rejected with `False` and the tree is unchanged; a point
inside the box is accepted with `True`, and the updated tree is again
well-formed, keeps its box, and stores exactly the old points plus the new
one. -/
theorem insert_sound : ∀ (t : PRQuadTree) (x y : ℚ), wf t = true →
    (t.box.contains_point { x := x, y := y } = false →
      insert t x y = some (t, some false)) ∧
    (t.box.contains_point { x := x, y := y } = true →
      ∃ t2, insert t x y = some (t2, some true) ∧ wf t2 = true ∧
        t2.box = t.box ∧
        (allPoints t2).Perm ({ x := x, y := y } :: allPoints t))
  | .mk b ps none cne csw cse, x, y, hw => by
    obtain ⟨hne, hsw, hse⟩ := wf_nw_none b ps cne csw cse hw
    subst hne; subst hsw; subst hse
    rw [wf_leaf_iff] at hw
    obtain ⟨hpos, hcap, hall⟩ := hw
    refine ⟨fun hc => insert_not_contains b ps none none none none hc,
      fun hc => ?_⟩
    simp only [box] at hc
    by_cases hlen : ps.length < QT_NODE_CAPACITY
    · refine ⟨.mk b (ps ++ [{ x := x, y := y }]) none none none none,
        insert_below_capacity b ps none none none none hc hlen, ?_, rfl, ?_⟩
      · rw [wf_leaf_iff]
        refine ⟨hpos, ?_, ?_⟩
        · rw [List.length_append]
          rw [QT_NODE_CAPACITY] at hlen ⊢
          simp only [List.length_singleton]
          omega
        · intro p hp
          rcases List.mem_append.1 hp with hp | hp
          · exact hall p hp
          · rw [List.mem_singleton] at hp
            subst hp
            exact hc
      · rw [allPoints_leaf, allPoints_leaf]
        exact List.perm_append_singleton _ _
    · have hq2 : (0 : ℚ) < b.half_size / 2 := by linarith
      by_cases q1 : b.quarterNW.contains_point { x := x, y := y } = true
      · refine ⟨_, insert_subdivide_NW b ps none none none hc hlen q1, ?_, rfl, ?_⟩
        · rw [wf_node_iff]
          refine ⟨hpos, hcap, hall, rfl, rfl, rfl, rfl, ?_,
            wf_init (by rw [Box.quarterNE_half_size]; exact hq2),
            wf_init (by rw [Box.quarterSW_half_size]; exact hq2),
            wf_init (by rw [Box.quarterSE_half_size]; exact hq2)⟩
          rw [wf_leaf_iff]
          refine ⟨by rw [Box.quarterNW_half_size]; exact hq2,
            by rw [QT_NODE_CAPACITY]; simp, ?_⟩
          intro p hp
          rw [List.mem_singleton] at hp
          subst hp
          exact q1
        · simp only [allPoints_node, init, allPoints_leaf, List.append_nil]
          exact List.perm_append_singleton _ _
      · rw [Bool.not_eq_true] at q1
        by_cases q2 : b.quarterNE.contains_point { x := x, y := y } = true
        · refine ⟨_, insert_subdivide_NE b ps none none none hc hlen q1 q2, ?_,
            rfl, ?_⟩
          · rw [wf_node_iff]
            refine ⟨hpos, hcap, hall, rfl, rfl, rfl, rfl,
              wf_init (by rw [Box.quarterNW_half_size]; exact hq2), ?_,
              wf_init (by rw [Box.quarterSW_half_size]; exact hq2),
              wf_init (by rw [Box.quarterSE_half_size]; exact hq2)⟩
            rw [wf_leaf_iff]
            refine ⟨by rw [Box.quarterNE_half_size]; exact hq2,
              by rw [QT_NODE_CAPACITY]; simp, ?_⟩
            intro p hp
            rw [List.mem_singleton] at hp
            subst hp
            exact q2
          · simp only [allPoints_node, init, allPoints_leaf, List.append_nil,
              List.nil_append]
            exact List.perm_append_singleton _ _
        · rw [Bool.not_eq_true] at q2
          by_cases q3 : b.quarterSW.contains_point { x := x, y := y } = true
          · refine ⟨_, insert_subdivide_SW b ps none none none hc hlen q1 q2 q3,
              ?_, rfl, ?_⟩
            · rw [wf_node_iff]
              refine ⟨hpos, hcap, hall, rfl, rfl, rfl, rfl,
                wf_init (by rw [Box.quarterNW_half_size]; exact hq2),
                wf_init (by rw [Box.quarterNE_half_size]; exact hq2), ?_,
                wf_init (by rw [Box.quarterSE_half_size]; exact hq2)⟩
              rw [wf_leaf_iff]
              refine ⟨by rw [Box.quarterSW_half_size]; exact hq2,
                by rw [QT_NODE_CAPACITY]; simp, ?_⟩
              intro p hp
              rw [List.mem_singleton] at hp
              subst hp
              exact q3
            · simp only [allPoints_node, init, allPoints_leaf, List.append_nil,
                List.nil_append]
              exact List.perm_append_singleton _ _
          · rw [Bool.not_eq_true] at q3
            by_cases q4 : b.quarterSE.contains_point { x := x, y := y } = true
            · refine ⟨_, insert_subdivide_SE b ps none none none hc hlen
                q1 q2 q3 q4, ?_, rfl, ?_⟩
              · rw [wf_node_iff]
                refine ⟨hpos, hcap, hall, rfl, rfl, rfl, rfl,
                  wf_init (by rw [Box.quarterNW_half_size]; exact hq2),
                  wf_init (by rw [Box.quarterNE_half_size]; exact hq2),
                  wf_init (by rw [Box.quarterSW_half_size]; exact hq2), ?_⟩
                rw [wf_leaf_iff]
                refine ⟨by rw [Box.quarterSE_half_size]; exact hq2,
                  by rw [QT_NODE_CAPACITY]; simp, ?_⟩
                intro p hp
                rw [List.mem_singleton] at hp
                subst hp
                exact q4
              · simp only [allPoints_node, init, allPoints_leaf, List.append_nil,
                  List.nil_append]
                exact List.perm_append_singleton _ _
            · rw [Bool.not_eq_true] at q4
              exfalso
              rcases Box.quarter_cover hc with h | h | h | h
              · rw [q1] at h; cases h
              · rw [q2] at h; cases h
              · rw [q3] at h; cases h
              · rw [q4] at h; cases h
  | .mk b ps (some tnw) (some tne) (some tsw) (some tse), x, y, hw => by
    rw [wf_node_iff] at hw
    obtain ⟨hpos, hcap, hall, bnw, bne, bsw, bse, wnw, wne, wsw, wse⟩ := hw
    have IH1 := insert_sound tnw x y wnw
    have IH2 := insert_sound tne x y wne
    have IH3 := insert_sound tsw x y wsw
    have IH4 := insert_sound tse x y wse
    refine ⟨fun hc => insert_not_contains b ps _ _ _ _ hc, fun hc => ?_⟩
    simp only [box] at hc
    by_cases hlen : ps.length < QT_NODE_CAPACITY
    · refine ⟨.mk b (ps ++ [{ x := x, y := y }]) (some tnw) (some tne)
        (some tsw) (some tse),
        insert_below_capacity b ps _ _ _ _ hc hlen, ?_, rfl, ?_⟩
      · rw [wf_node_iff]
        refine ⟨hpos, ?_, ?_, bnw, bne, bsw, bse, wnw, wne, wsw, wse⟩
        · rw [List.length_append]
          rw [QT_NODE_CAPACITY] at hlen ⊢
          simp only [List.length_singleton]
          omega
        · intro p hp
          rcases List.mem_append.1 hp with hp | hp
          · exact hall p hp
          · rw [List.mem_singleton] at hp
            subst hp
            exact hc
      · rw [allPoints_node, allPoints_node]
        simp only [List.append_assoc, List.singleton_append]
        exact List.perm_middle
    · by_cases q1 : b.quarterNW.contains_point { x := x, y := y } = true
      · have hc1 : tnw.box.contains_point { x := x, y := y } = true := by
          rw [bnw]; exact q1
        obtain ⟨t2, e1, w2, bx2, pm2⟩ := IH1.2 hc1
        refine ⟨.mk b ps (some t2) (some tne) (some tsw) (some tse),
          insert_delegate_NW b ps _ _ _ hc hlen e1, ?_, rfl, ?_⟩
        · rw [wf_node_iff]
          exact ⟨hpos, hcap, hall, by rw [bx2, bnw], bne, bsw, bse, w2, wne,
            wsw, wse⟩
        · rw [allPoints_node, allPoints_node]
          simp only [List.append_assoc]
          exact perm_pull (List.Perm.append_right _ pm2)
      · rw [Bool.not_eq_true] at q1
        have hc1 : tnw.box.contains_point { x := x, y := y } = false := by
          rw [bnw]; exact q1
        have e1 := IH1.1 hc1
        by_cases q2 : b.quarterNE.contains_point { x := x, y := y } = true
        · have hc2 : tne.box.contains_point { x := x, y := y } = true := by
            rw [bne]; exact q2
          obtain ⟨t2, e2, w2, bx2, pm2⟩ := IH2.2 hc2
          refine ⟨.mk b ps (some tnw) (some t2) (some tsw) (some tse),
            insert_delegate_NE b ps _ _ hc hlen e1 (by simp) e2, ?_, rfl, ?_⟩
          · rw [wf_node_iff]
            exact ⟨hpos, hcap, hall, bnw, by rw [bx2, bne], bsw, bse, wnw, w2,
              wsw, wse⟩
          · rw [allPoints_node, allPoints_node]
            simp only [List.append_assoc]
            exact perm_pull (perm_pull (List.Perm.append_right _ pm2))
        · rw [Bool.not_eq_true] at q2
          have hc2 : tne.box.contains_point { x := x, y := y } = false := by
            rw [bne]; exact q2
          have e2 := IH2.1 hc2
          by_cases q3 : b.quarterSW.contains_point { x := x, y := y } = true
          · have hc3 : tsw.box.contains_point { x := x, y := y } = true := by
              rw [bsw]; exact q3
            obtain ⟨t2, e3, w2, bx2, pm2⟩ := IH3.2 hc3
            refine ⟨.mk b ps (some tnw) (some tne) (some t2) (some tse),
              insert_delegate_SW b ps _ hc hlen e1 (by simp) e2 (by simp) e3,
              ?_, rfl, ?_⟩
            · rw [wf_node_iff]
              exact ⟨hpos, hcap, hall, bnw, bne, by rw [bx2, bsw], bse, wnw,
                wne, w2, wse⟩
            · rw [allPoints_node, allPoints_node]
              simp only [List.append_assoc]
              exact perm_pull (perm_pull (perm_pull
                (List.Perm.append_right _ pm2)))
          · rw [Bool.not_eq_true] at q3
            have hc3 : tsw.box.contains_point { x := x, y := y } = false := by
              rw [bsw]; exact q3
            have e3 := IH3.1 hc3
            by_cases q4 : b.quarterSE.contains_point { x := x, y := y } = true
            · have hc4 : tse.box.contains_point { x := x, y := y } = true := by
                rw [bse]; exact q4
              obtain ⟨t2, e4, w2, bx2, pm2⟩ := IH4.2 hc4
              refine ⟨.mk b ps (some tnw) (some tne) (some tsw) (some t2),
                insert_delegate_SE b ps hc hlen e1 (by simp) e2 (by simp) e3
                  (by simp) e4, ?_, rfl, ?_⟩
              · rw [wf_node_iff]
                exact ⟨hpos, hcap, hall, bnw, bne, bsw, by rw [bx2, bse], wnw,
                  wne, wsw, w2⟩
              · rw [allPoints_node, allPoints_node]
                simp only [List.append_assoc]
                exact perm_pull (perm_pull (perm_pull (perm_pull pm2)))
            · rw [Bool.not_eq_true] at q4
              exfalso
              rcases Box.quarter_cover hc with h | h | h | h
              · rw [q1] at h; cases h
              · rw [q2] at h; cases h
              · rw [q3] at h; cases h
              · rw [q4] at h; cases h
  | .mk b ps (some _) none csw cse, x, y, hw => by
    rcases csw <;> rcases cse <;> simp [wf, wfO, childrenShape] at hw
  | .mk b ps (some _) (some _) none cse, x, y, hw => by
    rcases cse <;> simp [wf, wfO, childrenShape] at hw
  | .mk b ps (some _) (some _) (some _) none, x, y, hw => by
    simp [wf, wfO, childrenShape] at hw

/-- Pruning: a range box that fails the (strict) `intersect` test against a
node's box makes `query_range` return the empty list at once. -/
theorem query_range_prune (t : PRQuadTree) (rng : Box)
    (hi : t.box.intersect rng = false) : t.query_range rng = some [] := by
  match t with
  | .mk b ps cnw cne csw cse =>
    simp only [box] at hi
    exact query_range_not_intersect b ps cnw cne csw cse hi

/-- Every point stored transitively under a well-formed node lies in that
node's box. -/
theorem allPoints_contains : ∀ (t : PRQuadTree), wf t = true →
    ∀ p ∈ allPoints t, t.box.contains_point p = true
  | .mk b ps none cne csw cse, hw => by
    obtain ⟨hne, hsw, hse⟩ := wf_nw_none b ps cne csw cse hw
    subst hne; subst hsw; subst hse
    rw [wf_leaf_iff] at hw
    rw [allPoints_leaf]
    exact hw.2.2
  | .mk b ps (some tnw) (some tne) (some tsw) (some tse), hw => by
    rw [wf_node_iff] at hw
    obtain ⟨hpos, hcap, hall, bnw, bne, bsw, bse, wnw, wne, wsw, wse⟩ := hw
    have hnn : (0 : ℚ) ≤ b.half_size := le_of_lt hpos
    intro p hp
    rw [allPoints_node] at hp
    simp only [List.mem_append] at hp
    simp only [box]
    rcases hp with (((hp | hp) | hp) | hp) | hp
    · exact hall p hp
    · have := allPoints_contains tnw wnw p hp
      rw [bnw] at this
      exact Box.contains_of_insideOf (Box.quarterNW_insideOf b hnn) this
    · have := allPoints_contains tne wne p hp
      rw [bne] at this
      exact Box.contains_of_insideOf (Box.quarterNE_insideOf b hnn) this
    · have := allPoints_contains tsw wsw p hp
      rw [bsw] at this
      exact Box.contains_of_insideOf (Box.quarterSW_insideOf b hnn) this
    · have := allPoints_contains tse wse p hp
      rw [bse] at this
      exact Box.contains_of_insideOf (Box.quarterSE_insideOf b hnn) this
  | .mk b ps (some _) none csw cse, hw => by
    rcases csw <;> rcases cse <;> simp [wf, wfO, childrenShape] at hw
  | .mk b ps (some _) (some _) none cse, hw => by
    rcases cse <;> simp [wf, wfO, childrenShape] at hw
  | .mk b ps (some _) (some _) (some _) none, hw => by
    simp [wf, wfO, childrenShape] at hw

/-- A range box that (weakly) encloses a well-formed tree's box collects all
of the tree's points: each node passes the intersection test and every local
point passes the containment filter. -/
theorem query_range_inside : ∀ (t : PRQuadTree) (R : Box), wf t = true →
    t.box.insideOf R → t.query_range R = some (allPoints t)
  | .mk b ps none cne csw cse, R, hw, hio => by
    obtain ⟨hne, hsw, hse⟩ := wf_nw_none b ps cne csw cse hw
    subst hne; subst hsw; subst hse
    rw [wf_leaf_iff] at hw
    obtain ⟨hpos, hcap, hall⟩ := hw
    simp only [box] at hio
    rw [query_range_leaf b ps none none none
      (Box.intersect_of_insideOf hpos hio), allPoints_leaf]
    have hfil : ps.filter (fun point => R.contains_point point) = ps := by
      rw [List.filter_eq_self]
      intro p hp
      exact Box.contains_of_insideOf hio (hall p hp)
    rw [hfil]
  | .mk b ps (some tnw) (some tne) (some tsw) (some tse), R, hw, hio => by
    rw [wf_node_iff] at hw
    obtain ⟨hpos, hcap, hall, bnw, bne, bsw, bse, wnw, wne, wsw, wse⟩ := hw
    have hnn : (0 : ℚ) ≤ b.half_size := le_of_lt hpos
    simp only [box] at hio
    have enw := query_range_inside tnw R wnw
      (bnw ▸ Box.insideOf_trans (Box.quarterNW_insideOf b hnn) hio)
    have ene := query_range_inside tne R wne
      (bne ▸ Box.insideOf_trans (Box.quarterNE_insideOf b hnn) hio)
    have esw := query_range_inside tsw R wsw
      (bsw ▸ Box.insideOf_trans (Box.quarterSW_insideOf b hnn) hio)
    have ese := query_range_inside tse R wse
      (bse ▸ Box.insideOf_trans (Box.quarterSE_insideOf b hnn) hio)
    rw [query_range_node b ps (Box.intersect_of_insideOf hpos hio)
      enw ene esw ese, allPoints_node]
    have hfil : ps.filter (fun point => R.contains_point point) = ps := by
      rw [List.filter_eq_self]
      intro p hp
      exact Box.contains_of_insideOf hio (hall p hp)
    rw [hfil]
  | .mk b ps (some _) none csw cse, R, hw, hio => by
    rcases csw <;> rcases cse <;> simp [wf, wfO, childrenShape] at hw
  | .mk b ps (some _) (some _) none cse, R, hw, hio => by
    rcases cse <;> simp [wf, wfO, childrenShape] at hw
  | .mk b ps (some _) (some _) (some _) none, R, hw, hio => by
    simp [wf, wfO, childrenShape] at hw

theorem allNodes_leaf (b : Box) (ps : List Point) :
    allNodes (.mk b ps none none none none) = [.mk b ps none none none none] := by
  simp [allNodes, allNodesO]

theorem allNodes_node (b : Box) (ps : List Point) (tnw tne tsw tse : PRQuadTree) :
    allNodes (.mk b ps (some tnw) (some tne) (some tsw) (some tse)) =
      .mk b ps (some tnw) (some tne) (some tsw) (some tse)
        :: (allNodes tnw ++ allNodes tne ++ allNodes tsw ++ allNodes tse) := by
  simp [allNodes, allNodesO]

/-- Every node of a well-formed tree is itself well-formed. -/
theorem wf_allNodes : ∀ (t : PRQuadTree), wf t = true →
    ∀ n ∈ allNodes t, wf n = true
  | .mk b ps none cne csw cse, hw => by
    obtain ⟨hne, hsw, hse⟩ := wf_nw_none b ps cne csw cse hw
    subst hne; subst hsw; subst hse
    rw [allNodes_leaf]
    intro n hn
    rw [List.mem_singleton] at hn
    subst hn
    exact hw
  | .mk b ps (some tnw) (some tne) (some tsw) (some tse), hw => by
    have hw2 := hw
    rw [wf_node_iff] at hw2
    obtain ⟨-, -, -, -, -, -, -, wnw, wne, wsw, wse⟩ := hw2
    intro n hn
    rw [allNodes_node] at hn
    rcases List.mem_cons.1 hn with hn | hn
    · subst hn
      exact hw
    · simp only [List.mem_append] at hn
      rcases hn with ((hn | hn) | hn) | hn
      · exact wf_allNodes tnw wnw n hn
      · exact wf_allNodes tne wne n hn
      · exact wf_allNodes tsw wsw n hn
      · exact wf_allNodes tse wse n hn
  | .mk b ps (some _) none csw cse, hw => by
    rcases csw <;> rcases cse <;> simp [wf, wfO, childrenShape] at hw
  | .mk b ps (some _) (some _) none cse, hw => by
    rcases cse <;> simp [wf, wfO, childrenShape] at hw
  | .mk b ps (some _) (some _) (some _) none, hw => by
    simp [wf, wfO, childrenShape] at hw

/-- On a well-formed tree `insert` always returns an actual boolean (never
raises, never falls off the end of the Python body), and the resulting tree
is again well-formed. -/
theorem insert_total (t : PRQuadTree) (x y : ℚ) (hw : wf t = true) :
    ∃ t2 r, insert t x y = some (t2, some r) ∧ wf t2 = true := by
  cases hc : t.box.contains_point { x := x, y := y }
  · exact ⟨t, false, (insert_sound t x y hw).1 hc, hw⟩
  · obtain ⟨t2, e, w2, -, -⟩ := (insert_sound t x y hw).2 hc
    exact ⟨t2, true, e, w2⟩

/-- Iterated insertion of in-bounds points: every step returns `True`, the
final tree is well-formed, keeps the root box, and stores exactly the given
points in addition to what was already there. -/
theorem insertSeq_sound : ∀ (ps : List Point) (t : PRQuadTree), wf t = true →
    (∀ p ∈ ps, t.box.contains_point p = true) →
    ∃ t3, insertSeq t ps = some (t3, List.replicate ps.length (some true)) ∧
      wf t3 = true ∧ t3.box = t.box ∧
      (allPoints t3).Perm (ps ++ allPoints t)
  | [], t, hw, _ => ⟨t, by simp [insertSeq], hw, rfl, by simp⟩
  | p :: rest, t, hw, hin => by
    have hc : t.box.contains_point { x := p.x, y := p.y } = true :=
      hin p (List.mem_cons_self p rest)
    obtain ⟨t2, e, w2, bx2, pm2⟩ := (insert_sound t p.x p.y hw).2 hc
    have hin2 : ∀ q ∈ rest, t2.box.contains_point q = true := by
      intro q hq
      rw [bx2]
      exact hin q (List.mem_cons_of_mem p hq)
    obtain ⟨t3, e3, w3, bx3, pm3⟩ := insertSeq_sound rest t2 w2 hin2
    refine ⟨t3, ?_, w3, by rw [bx3, bx2], ?_⟩
    · rw [insertSeq, e]
      simp [e3, List.replicate_succ]
    · refine pm3.trans ?_
      refine (List.Perm.append_left rest pm2).trans ?_
      exact List.perm_middle

/-- Characterization of the widening loop over the block of exponents
`a, a+1, …, a+n-1`: it answers with the range-query result at the first
exponent giving at least `k` points, or at the last exponent if none does;
all strictly earlier exponents in the block gave fewer than `k` points. -/
theorem widenScan_spec : ∀ (n a : Nat) (t : PRQuadTree) (point : Point)
    (k : Nat), wf t = true → 0 < n →
    ∃ i nearby, a ≤ i ∧ i < a + n ∧
      t.query_range (Box.init point (2 ^ i)) = some nearby ∧
      widenScan t point k (List.range' a n) = some nearby ∧
      (k ≤ nearby.length ∨ i = a + n - 1) ∧
      (∀ j lj, a ≤ j → j < i →
        t.query_range (Box.init point (2 ^ j)) = some lj → lj.length < k)
  | 0, _, _, _, _, _, hn => absurd hn (by simp)
  | 1, a, t, point, k, hw, _ => by
    obtain ⟨la, ela⟩ := query_range_some t (Box.init point (2 ^ a)) hw
    refine ⟨a, la, le_refl a, by omega, ela, ?_, Or.inr (by omega), ?_⟩
    · show widenScan t point k [a] = some la
      rw [widenScan]
      exact ela
    · intro j lj h1 h2
      omega
  | n + 2, a, t, point, k, hw, _ => by
    obtain ⟨la, ela⟩ := query_range_some t (Box.init point (2 ^ a)) hw
    have hsplit : List.range' a (n + 2) = a :: (a + 1) :: List.range' (a + 2) n := by
      rw [List.range'_succ, List.range'_succ]
    by_cases hk : k ≤ la.length
    · refine ⟨a, la, le_refl a, by omega, ela, ?_, Or.inl hk, ?_⟩
      · rw [hsplit, widenScan, ela]
        simp [hk]
      · intro j lj h1 h2
        omega
    · obtain ⟨i, nearby, hi1, hi2, eq1, eq2, hlast, hleast⟩ :=
        widenScan_spec (n + 1) (a + 1) t point k hw (by omega)
      refine ⟨i, nearby, by omega, by omega, eq1, ?_, ?_, ?_⟩
      · rw [hsplit, widenScan, ela]
        simp only [hk, if_false]
        have eq2b := eq2
        rw [List.range'_succ] at eq2b
        exact eq2b
      · rcases hlast with h | h
        · exact Or.inl h
        · exact Or.inr (by omega)
      · intro j lj h1 h2 ej
        rcases Nat.eq_or_lt_of_le h1 with h | h
        · subst h
          rw [ej] at ela
          injection ela with ela
          subst ela
          omega
        · exact hleast j lj (by omega) h2 ej

/-- The sort comparator of `query_k_nearest` is transitive and total. -/
theorem sort_key_trans_total (point : Point) :
    (∀ a b c : Point, (decide (sort_key_sq point a ≤ sort_key_sq point b)) = true →
      (decide (sort_key_sq point b ≤ sort_key_sq point c)) = true →
      (decide (sort_key_sq point a ≤ sort_key_sq point c)) = true) ∧
    (∀ a b : Point, ((decide (sort_key_sq point a ≤ sort_key_sq point b)) ||
      (decide (sort_key_sq point b ≤ sort_key_sq point a))) = true) := by
  constructor
  · intro a b c h1 h2
    simp only [decide_eq_true_eq] at h1 h2 ⊢
    exact le_trans h1 h2
  · intro a b
    simp only [Bool.or_eq_true, decide_eq_true_eq]
    exact le_total _ _

/-- `query_k_nearest` on a well-formed tree: the candidates come from the
range query at the smallest exponent `i ∈ [1, 19]` yielding at least `k`
points (or `i = 19` if none does), and the answer is the first `k` of the
candidates sorted by (squared) distance to the query point. -/
theorem query_k_nearest_spec (t : PRQuadTree) (point : Point) (k : Nat)
    (hw : wf t = true) :
    ∃ i nearby, 1 ≤ i ∧ i ≤ 19 ∧
      t.query_range (Box.init point (2 ^ i)) = some nearby ∧
      (k ≤ nearby.length ∨ i = 19) ∧
      (∀ j lj, 1 ≤ j → j < i →
        t.query_range (Box.init point (2 ^ j)) = some lj → lj.length < k) ∧
      t.query_k_nearest point k =
        some ((nearby.mergeSort
          fun a b => sort_key_sq point a ≤ sort_key_sq point b).take k) := by
  obtain ⟨i, nearby, hi1, hi2, eq1, eq2, hlast, hleast⟩ :=
    widenScan_spec 19 1 t point k hw (by omega)
  refine ⟨i, nearby, hi1, by omega, eq1, ?_, hleast, ?_⟩
  · rcases hlast with h | h
    · exact Or.inl h
    · exact Or.inr (by omega)
  · rw [query_k_nearest, eq2]

/-- The answer of `query_k_nearest` is sorted by distance to the query
point (stated on the squared Euclidean distance, whose order is the
Euclidean order). -/
theorem knn_take_sorted (point : Point) (k : Nat) (nearby : List Point) :
    List.Sorted (fun a b => sort_key_sq point a ≤ sort_key_sq point b)
      ((nearby.mergeSort
        fun a b => sort_key_sq point a ≤ sort_key_sq point b).take k) := by
  obtain ⟨htrans, htotal⟩ := sort_key_trans_total point
  have hs := List.sorted_mergeSort htrans htotal nearby
  have hsub := List.Pairwise.sublist (List.take_sublist k (nearby.mergeSort
    fun a b => sort_key_sq point a ≤ sort_key_sq point b)) hs
  exact List.Pairwise.imp (fun h => of_decide_eq_true h) hsub

/-- The answer of `query_k_nearest` has length `min k (number of
candidates)`. -/
theorem knn_take_length (point : Point) (k : Nat) (nearby : List Point) :
    ((nearby.mergeSort
      fun a b => sort_key_sq point a ≤ sort_key_sq point b).take k).length =
      min k nearby.length := by
  rw [List.length_take, List.length_mergeSort]

end PRQuadTree

/-! ### Claim theorems -/

open PRQuadTree in
/-- C1: for every sequence of distinct points inserted (each insert
returning true) into a tree whose root box covers them all, a range query
over the full root box returns exactly those points as a set (here: even as
a permutation), and a range query over a box disjoint from the root box
(one failing the `intersect` test) returns the empty sequence. -/
theorem claim_C1 (B : Box) (ps : List Point) (hpos : 0 < B.half_size)
    (hnodup : ps.Nodup) (hin : ∀ p ∈ ps, B.contains_point p = true) :
    ∃ (T : PRQuadTree) (l : List Point),
      insertSeq (init B) ps = some (T, List.replicate ps.length (some true)) ∧
      T.query_range B = some l ∧ l.Perm ps ∧ l.toFinset = ps.toFinset ∧
      ∀ D : Box, B.intersect D = false → T.query_range D = some [] := by
  have hw : wf (init B) = true := wf_init hpos
  obtain ⟨T, e, wT, bT, pm⟩ := insertSeq_sound ps (init B) hw hin
  have hap : allPoints (init B) = [] := allPoints_leaf B []
  have pm2 : (allPoints T).Perm ps := by
    rw [hap, List.append_nil] at pm
    exact pm
  have hio : T.box.insideOf B := by
    rw [bT]
    exact Box.insideOf_refl B
  have hfs : (allPoints T).toFinset = ps.toFinset := by
    ext a
    simp only [List.mem_toFinset]
    exact pm2.mem_iff
  refine ⟨T, allPoints T, e, query_range_inside T B wT hio, pm2, hfs, ?_⟩
  intro D hD
  refine query_range_prune T D ?_
  rw [bT]
  exact hD

open PRQuadTree in
/-- C2: on well-formed trees `insert` - returns an actual boolean: `False`
for a point outside the node's box (and the tree is unchanged), `True` for
a point inside the box (and the point is then stored); the all-children-
reject path that would make the Python body return `None` is unreachable. -/
theorem claim_C2 (t : PRQuadTree) (x y : ℚ) (hw : wf t = true) :
    (t.box.contains_point { x := x, y := y } = false →
      insert t x y = some (t, some false)) ∧
    (t.box.contains_point { x := x, y := y } = true →
      ∃ t2, insert t x y = some (t2, some true) ∧
        { x := x, y := y } ∈ allPoints t2) := by
  refine ⟨(insert_sound t x y hw).1, fun hc => ?_⟩
  obtain ⟨t2, e, -, -, pm⟩ := (insert_sound t x y hw).2 hc
  exact ⟨t2, e, pm.mem_iff.2 (List.mem_cons_self _ _)⟩

/-- C3: `contains_point` is inclusive (a point exactly on a box edge is
contained, e.g. box center (0,0), half-size 5, point (5,0)), while
`intersect` is strict (two boxes sharing only an edge or a corner do not
intersect, e.g. boxes centered (0,0) and (10,0), both of half-size 5). -/
theorem claim_C3 :
    (∀ (c : Point) (h : ℚ), 0 ≤ h →
      (Box.init c h).contains_point { x := c.x + h, y := c.y } = true) ∧
    (∀ a b : Box, a.center.x + a.half_size = b.center.x - b.half_size →
      a.intersect b = false) ∧
    (Box.init { x := 0, y := 0 } 5).contains_point { x := 5, y := 0 } = true ∧
    (Box.init { x := 0, y := 0 } 5).intersect
      (Box.init { x := 10, y := 0 } 5) = false := by
  refine ⟨?_, ?_, ?_, ?_⟩
  · intro c h hh
    rw [Box.contains_point_iff]
    refine ⟨by dsimp [Box.init]; linarith, by dsimp [Box.init]; linarith,
      by dsimp [Box.init]; linarith, by dsimp [Box.init]; linarith⟩
  · intro a b heq
    rw [← Bool.not_eq_true, Box.intersect_iff]
    intro hint
    obtain ⟨h1, h2, h3, h4⟩ := hint
    linarith
  · rw [Box.contains_point_iff]
    norm_num [Box.init]
  · rw [← Bool.not_eq_true, Box.intersect_iff]
    norm_num [Box.init]

open PRQuadTree in
/-- C4: on a well-formed tree, `query_k_nearest(point, k)` takes the
candidates from the range query over the square box centered at `point`
with half-size `2^i`, for the smallest exponent `i ∈ [1, 19]` that yields
at least `k` points (or `i = 19` if none does), and returns the first `k`
of them sorted ascending by distance to `point` (stated via the squared
Euclidean distance, which orders exactly as the Euclidean one); if fewer
than `k` candidates exist it returns all of them, without error. -/
theorem claim_C4 (t : PRQuadTree) (point : Point) (k : Nat)
    (hw : wf t = true) :
    ∃ (i : Nat) (nearby result : List Point), 1 ≤ i ∧ i ≤ 19 ∧
      t.query_range (Box.init point (2 ^ i)) = some nearby ∧
      (k ≤ nearby.length ∨ i = 19) ∧
      (∀ j lj, 1 ≤ j → j < i →
        t.query_range (Box.init point (2 ^ j)) = some lj → lj.length < k) ∧
      t.query_k_nearest point k = some result ∧
      result = (nearby.mergeSort
        fun a b => sort_key_sq point a ≤ sort_key_sq point b).take k ∧
      List.Sorted (fun a b => sort_key_sq point a ≤ sort_key_sq point b)
        result ∧
      result.length = min k nearby.length ∧
      (nearby.length < k → result.Perm nearby) := by
  obtain ⟨i, nearby, hi1, hi2, eq1, hlast, hleast, eknn⟩ :=
    query_k_nearest_spec t point k hw
  refine ⟨i, nearby, _, hi1, hi2, eq1, hlast, hleast, eknn, rfl,
    knn_take_sorted point k nearby, knn_take_length point k nearby, ?_⟩
  intro hlt
  have hlen : (nearby.mergeSort
      fun a b => sort_key_sq point a ≤ sort_key_sq point b).length ≤ k := by
    rw [List.length_mergeSort]
    omega
  rw [List.take_of_length_le hlen]
  exact List.mergeSort_perm nearby _

/-- C5 (counterexample): the `Box` constructor does not reject a
non-positive half-size: constructing with half-size `-1` succeeds and
simply stores `-1`; no `InvalidBox` error exists anywhere in the code. -/
theorem claim_C5_counterexample :
    Box.init { x := 0, y := 0 } (-1) =
      { center := { x := 0, y := 0 }, half_size := -1 } ∧
    (Box.init { x := 0, y := 0 } (-1)).half_size ≤ 0 := by
  exact ⟨rfl, by norm_num [Box.init]⟩

/-- C5 (amended): the `Box` constructor performs no validation at all — for
every center and every half-size (positive or not) it succeeds and stores
its arguments verbatim. -/
theorem claim_C5_amended (c : Point) (h : ℚ) :
    Box.init c h = { center := c, half_size := h } := rfl

open PRQuadTree in
/-- C6: inserting two distinct in-bound points into a fresh capacity-1 tree
forces exactly one subdivision: both inserts return true, the root keeps
its box and its first point, and it acquires exactly four children, each a
leaf whose box quarters the root box (half the half-size, centers offset by
the new half-size diagonally: NW up-left, NE up-right, SW down-left, SE
down-right), with the second point stored in exactly one child. -/
theorem claim_C6 (B : Box) (p1 p2 : Point) (hne : p1 ≠ p2)
    (h1 : B.contains_point p1 = true) (h2 : B.contains_point p2 = true) :
    ∃ (t1 t2 c1 c2 c3 c4 : PRQuadTree),
      insert (init B) p1.x p1.y = some (t1, some true) ∧
      insert t1 p2.x p2.y = some (t2, some true) ∧
      t2.box = B ∧ t2.points = [p1] ∧
      t2.nw = some c1 ∧ t2.ne = some c2 ∧ t2.sw = some c3 ∧ t2.se = some c4 ∧
      (c1.nw = none ∧ c1.ne = none ∧ c1.sw = none ∧ c1.se = none) ∧
      (c2.nw = none ∧ c2.ne = none ∧ c2.sw = none ∧ c2.se = none) ∧
      (c3.nw = none ∧ c3.ne = none ∧ c3.sw = none ∧ c3.se = none) ∧
      (c4.nw = none ∧ c4.ne = none ∧ c4.sw = none ∧ c4.se = none) ∧
      c1.box = B.quarterNW ∧ c2.box = B.quarterNE ∧
      c3.box = B.quarterSW ∧ c4.box = B.quarterSE ∧
      B.quarterNW.half_size = B.half_size / 2 ∧
      B.quarterNW.center.x = B.center.x - B.half_size / 2 ∧
      B.quarterNW.center.y = B.center.y + B.half_size / 2 ∧
      B.quarterNE.half_size = B.half_size / 2 ∧
      B.quarterNE.center.x = B.center.x + B.half_size / 2 ∧
      B.quarterNE.center.y = B.center.y + B.half_size / 2 ∧
      B.quarterSW.half_size = B.half_size / 2 ∧
      B.quarterSW.center.x = B.center.x - B.half_size / 2 ∧
      B.quarterSW.center.y = B.center.y - B.half_size / 2 ∧
      B.quarterSE.half_size = B.half_size / 2 ∧
      B.quarterSE.center.x = B.center.x + B.half_size / 2 ∧
      B.quarterSE.center.y = B.center.y - B.half_size / 2 ∧
      (allPoints c1 ++ allPoints c2 ++ allPoints c3 ++ allPoints c4) = [p2] := by
  have e1 : insert (init B) p1.x p1.y =
      some (.mk B [p1] none none none none, some true) :=
    insert_below_capacity B [] none none none none h1
      (by rw [QT_NODE_CAPACITY]; simp)
  have hlen : ¬ ([p1] : List Point).length < QT_NODE_CAPACITY := by
    rw [QT_NODE_CAPACITY]
    simp
  by_cases q1 : B.quarterNW.contains_point p2 = true
  · refine ⟨_, _, _, _, _, _, e1, insert_subdivide_NW B [p1] none none none
      h2 hlen q1, rfl, rfl, rfl, rfl, rfl, rfl, ⟨rfl, rfl, rfl, rfl⟩,
      ⟨rfl, rfl, rfl, rfl⟩, ⟨rfl, rfl, rfl, rfl⟩, ⟨rfl, rfl, rfl, rfl⟩,
      rfl, rfl, rfl, rfl, rfl, rfl, rfl, rfl, rfl, rfl, rfl, rfl, rfl, rfl,
      rfl, rfl, ?_⟩
    simp [allPoints_leaf, init]
  · rw [Bool.not_eq_true] at q1
    by_cases q2 : B.quarterNE.contains_point p2 = true
    · refine ⟨_, _, _, _, _, _, e1, insert_subdivide_NE B [p1] none none none
        h2 hlen q1 q2, rfl, rfl, rfl, rfl, rfl, rfl, ⟨rfl, rfl, rfl, rfl⟩,
        ⟨rfl, rfl, rfl, rfl⟩, ⟨rfl, rfl, rfl, rfl⟩, ⟨rfl, rfl, rfl, rfl⟩,
        rfl, rfl, rfl, rfl, rfl, rfl, rfl, rfl, rfl, rfl, rfl, rfl, rfl,
        rfl, rfl, rfl, ?_⟩
      simp [allPoints_leaf, init]
    · rw [Bool.not_eq_true] at q2
      by_cases q3 : B.quarterSW.contains_point p2 = true
      · refine ⟨_, _, _, _, _, _, e1, insert_subdivide_SW B [p1] none none
          none h2 hlen q1 q2 q3, rfl, rfl, rfl, rfl, rfl, rfl,
          ⟨rfl, rfl, rfl, rfl⟩, ⟨rfl, rfl, rfl, rfl⟩, ⟨rfl, rfl, rfl, rfl⟩,
          ⟨rfl, rfl, rfl, rfl⟩, rfl, rfl, rfl, rfl, rfl, rfl, rfl, rfl, rfl,
          rfl, rfl, rfl, rfl, rfl, rfl, rfl, ?_⟩
        simp [allPoints_leaf, init]
      · rw [Bool.not_eq_true] at q3
        by_cases q4 : B.quarterSE.contains_point p2 = true
        · refine ⟨_, _, _, _, _, _, e1, insert_subdivide_SE B [p1] none none
            none h2 hlen q1 q2 q3 q4, rfl, rfl, rfl, rfl, rfl, rfl,
            ⟨rfl, rfl, rfl, rfl⟩, ⟨rfl, rfl, rfl, rfl⟩, ⟨rfl, rfl, rfl, rfl⟩,
            ⟨rfl, rfl, rfl, rfl⟩, rfl, rfl, rfl, rfl, rfl, rfl, rfl, rfl,
            rfl, rfl, rfl, rfl, rfl, rfl, rfl, rfl, ?_⟩
          simp [allPoints_leaf, init]
        · rw [Bool.not_eq_true] at q4
          exfalso
          rcases Box.quarter_cover h2 with h | h | h | h
          · rw [q1] at h; cases h
          · rw [q2] at h; cases h
          · rw [q3] at h; cases h
          · rw [q4] at h; cases h

open PRQuadTree in
/-- C7: the structural invariants hold and are preserved: `insert` maps
well-formed trees to well-formed trees (queries do not modify the tree at
all in this embedding), a fresh tree over a positive box is well-formed,
and in a well-formed tree every node stores at most `QT_NODE_CAPACITY = 1`
points, every point transitively under a node lies in that node's box, and
every node's children are all absent or all four present. -/
theorem claim_C7 :
    (∀ (t : PRQuadTree) (x y : ℚ) (t2 : PRQuadTree) (r : Option Bool),
      wf t = true → insert t x y = some (t2, r) → wf t2 = true) ∧
    (∀ B : Box, 0 < B.half_size → wf (init B) = true) ∧
    (∀ t : PRQuadTree, wf t = true → ∀ n ∈ allNodes t,
      n.points.length ≤ QT_NODE_CAPACITY ∧
      (∀ p ∈ allPoints n, n.box.contains_point p = true) ∧
      ((n.nw = none ∧ n.ne = none ∧ n.sw = none ∧ n.se = none) ∨
        (∃ a b c d, n.nw = some a ∧ n.ne = some b ∧ n.sw = some c ∧
          n.se = some d))) := by
  refine ⟨?_, fun B hB => wf_init hB, ?_⟩
  · intro t x y t2 r hw e
    cases hc : t.box.contains_point { x := x, y := y }
    · have e2 := (insert_sound t x y hw).1 hc
      rw [e] at e2
      injection e2 with e2
      injection e2 with e2 _
      rw [← e2] at hw
      exact hw
    · obtain ⟨t3, e3, w3, -, -⟩ := (insert_sound t x y hw).2 hc
      rw [e] at e3
      injection e3 with e3
      injection e3 with e3 _
      rw [e3]
      exact w3
  · intro t hw n hn
    have hwn := wf_allNodes t hw n hn
    obtain ⟨b, ps, cnw, cne, csw, cse⟩ := n
    rw [wf] at hwn
    simp only [Bool.and_eq_true, decide_eq_true_eq] at hwn
    obtain ⟨⟨⟨⟨⟨⟨⟨-, hcap⟩, -⟩, hshape⟩, -⟩, -⟩, -⟩, -⟩ := hwn
    refine ⟨hcap, allPoints_contains _ (wf_allNodes t hw _ hn), ?_⟩
    simp only [childrenShape, Bool.or_eq_true, Bool.and_eq_true] at hshape
    rcases hshape with ⟨⟨⟨ha, hb⟩, hc⟩, hd⟩ | ⟨⟨⟨ha, hb⟩, hc⟩, hd⟩
    · exact Or.inl ⟨Option.isNone_iff_eq_none.1 ha,
        Option.isNone_iff_eq_none.1 hb, Option.isNone_iff_eq_none.1 hc,
        Option.isNone_iff_eq_none.1 hd⟩
    · obtain ⟨a, ha2⟩ := Option.isSome_iff_exists.1 ha
      obtain ⟨b2, hb2⟩ := Option.isSome_iff_exists.1 hb
      obtain ⟨c, hc2⟩ := Option.isSome_iff_exists.1 hc
      obtain ⟨d, hd2⟩ := Option.isSome_iff_exists.1 hd
      exact Or.inr ⟨a, b2, c, d, ha2, hb2, hc2, hd2⟩

open PRQuadTree in
/-- C8: a stored point accepted by the (inclusive) range containment test
can still be missed by `query_range`: the point (5, 0) sits on the shared
edge of the tree box (center (0,0), half-size 5) and the range box (center
(10,0), half-size 5); the range contains the point, but the strict
`intersect` test prunes the whole tree, so the query returns nothing. -/
theorem claim_C8 :
    ∃ t1 : PRQuadTree,
      insert (init (Box.init { x := 0, y := 0 } 5)) 5 0 =
        some (t1, some true) ∧
      (Box.init { x := 10, y := 0 } 5).contains_point { x := 5, y := 0 } =
        true ∧
      { x := 5, y := 0 } ∈ allPoints t1 ∧
      t1.query_range (Box.init { x := 10, y := 0 } 5) = some [] := by
  refine ⟨.mk (Box.init { x := 0, y := 0 } 5) [{ x := 5, y := 0 }]
    none none none none, ?_, ?_, ?_, ?_⟩
  · exact insert_below_capacity _ [] none none none none
      (by rw [Box.contains_point_iff]; norm_num [Box.init])
      (by rw [QT_NODE_CAPACITY]; simp)
  · rw [Box.contains_point_iff]
    norm_num [Box.init]
  · rw [allPoints_leaf]
    exact List.mem_singleton.2 rfl
  · exact query_range_not_intersect _ _ _ _ _ _
      (by rw [← Bool.not_eq_true, Box.intersect_iff]; norm_num [Box.init])

open PRQuadTree in
/-- C9: on well-formed trees each of the three operations evaluates to a
result for every input (the recursions are well-founded; in this embedding
each operation is a total function, and on well-formed trees it moreover
returns a value rather than the modelled `AttributeError`). -/
theorem claim_C9 (t : PRQuadTree) (x y : ℚ) (rng : Box) (point : Point)
    (k : Nat) (hw : wf t = true) :
    (∃ res, insert t x y = some res) ∧
    (∃ l, query_range t rng = some l) ∧
    (∃ m, query_k_nearest t point k = some m) := by
  obtain ⟨t2, r, e, -⟩ := insert_total t x y hw
  obtain ⟨l, el⟩ := query_range_some t rng hw
  obtain ⟨i, nearby, -, -, -, -, -, em⟩ := query_k_nearest_spec t point k hw
  exact ⟨⟨(t2, some r), e⟩, ⟨l, el⟩, ⟨_, em⟩⟩

open PRQuadTree in
/-- C10: `query_range` is a pure function of the tree and the range (the
source mutates nothing during a query, so the embedding takes the tree
immutably): two successive evaluations of the same query on the unmodified
tree give identical results. -/
theorem claim_C10 (t : PRQuadTree) (rng : Box) (l1 l2 : Option (List Point))
    (e1 : t.query_range rng = l1) (e2 : t.query_range rng = l2) : l1 = l2 :=
  e1.symm.trans e2

open PRQuadTree in
/-- Witness for C1 at a concrete box and point list. -/
theorem claim_C1_witness :
    (0 : ℚ) < (Box.init { x := 0, y := 0 } 5).half_size ∧
    ∃ (T : PRQuadTree) (l : List Point),
      insertSeq (init (Box.init { x := 0, y := 0 } 5))
          [{ x := 1, y := 1 }, { x := -1, y := -2 }] =
        some (T, List.replicate 2 (some true)) ∧
      T.query_range (Box.init { x := 0, y := 0 } 5) = some l ∧
      l.Perm [{ x := 1, y := 1 }, { x := -1, y := -2 }] ∧
      l.toFinset = [{ x := 1, y := 1 }, ({ x := -1, y := -2 } : Point)].toFinset ∧
      ∀ D : Box, (Box.init { x := 0, y := 0 } 5).intersect D = false →
        T.query_range D = some [] := by
  refine ⟨by norm_num [Box.init], ?_⟩
  exact claim_C1 (Box.init { x := 0, y := 0 } 5)
    [{ x := 1, y := 1 }, { x := -1, y := -2 }]
    (by norm_num [Box.init])
    (by norm_num [List.nodup_cons, Point.mk.injEq])
    (by
      intro p hp
      simp only [List.mem_cons, List.not_mem_nil, or_false] at hp
      rcases hp with h | h <;> subst h <;>
        (rw [Box.contains_point_iff]; norm_num [Box.init]))

open PRQuadTree in
/-- Witness for C2 at a concrete tree and point. -/
theorem claim_C2_witness :
    wf (init (Box.init { x := 0, y := 0 } 5)) = true ∧
    (((init (Box.init { x := 0, y := 0 } 5)).box.contains_point
        { x := 1, y := 1 } = false →
      insert (init (Box.init { x := 0, y := 0 } 5)) 1 1 =
        some (init (Box.init { x := 0, y := 0 } 5), some false)) ∧
    ((init (Box.init { x := 0, y := 0 } 5)).box.contains_point
        { x := 1, y := 1 } = true →
      ∃ t2, insert (init (Box.init { x := 0, y := 0 } 5)) 1 1 =
        some (t2, some true) ∧ { x := 1, y := 1 } ∈ allPoints t2)) :=
  ⟨wf_init (by norm_num [Box.init]),
    claim_C2 (init (Box.init { x := 0, y := 0 } 5)) 1 1
      (wf_init (by norm_num [Box.init]))⟩

/-- Witness for C3: its general parts instantiated at the concrete edge and
edge-sharing examples. -/
theorem claim_C3_witness :
    (Box.init { x := 0, y := 0 } 5).contains_point
      { x := ({ x := 0, y := 0 } : Point).x + 5,
        y := ({ x := 0, y := 0 } : Point).y } = true ∧
    (Box.init { x := 0, y := 0 } 5).intersect
      (Box.init { x := 10, y := 0 } 5) = false :=
  ⟨claim_C3.1 { x := 0, y := 0 } 5 (by norm_num),
    claim_C3.2.1 (Box.init { x := 0, y := 0 } 5) (Box.init { x := 10, y := 0 } 5)
      (by norm_num [Box.init])⟩

open PRQuadTree in
/-- Witness for C4 at a concrete tree, query point and k. -/
theorem claim_C4_witness :
    wf (init (Box.init { x := 0, y := 0 } 5)) = true ∧
    ∃ (i : Nat) (nearby result : List Point), 1 ≤ i ∧ i ≤ 19 ∧
      (init (Box.init { x := 0, y := 0 } 5)).query_range
        (Box.init { x := 0, y := 0 } (2 ^ i)) = some nearby ∧
      (2 ≤ nearby.length ∨ i = 19) ∧
      (∀ j lj, 1 ≤ j → j < i →
        (init (Box.init { x := 0, y := 0 } 5)).query_range
          (Box.init { x := 0, y := 0 } (2 ^ j)) = some lj → lj.length < 2) ∧
      (init (Box.init { x := 0, y := 0 } 5)).query_k_nearest
        { x := 0, y := 0 } 2 = some result ∧
      result = (nearby.mergeSort
        fun a b => sort_key_sq { x := 0, y := 0 } a ≤
          sort_key_sq { x := 0, y := 0 } b).take 2 ∧
      List.Sorted (fun a b => sort_key_sq { x := 0, y := 0 } a ≤
        sort_key_sq { x := 0, y := 0 } b) result ∧
      result.length = min 2 nearby.length ∧
      (nearby.length < 2 → result.Perm nearby) :=
  ⟨wf_init (by norm_num [Box.init]),
    claim_C4 (init (Box.init { x := 0, y := 0 } 5)) { x := 0, y := 0 } 2
      (wf_init (by norm_num [Box.init]))⟩

open PRQuadTree in
/-- Witness for C6 at a concrete box and two concrete distinct points. -/
theorem claim_C6_witness :
    (Box.init { x := 0, y := 0 } 5).contains_point { x := 1, y := 1 } = true ∧
    (Box.init { x := 0, y := 0 } 5).contains_point { x := -1, y := -2 } = true ∧
    ∃ (t1 t2 : PRQuadTree),
      insert (init (Box.init { x := 0, y := 0 } 5))
        ({ x := 1, y := 1 } : Point).x ({ x := 1, y := 1 } : Point).y =
        some (t1, some true) ∧
      insert t1 ({ x := -1, y := -2 } : Point).x
        ({ x := -1, y := -2 } : Point).y = some (t2, some true) ∧
      t2.box = Box.init { x := 0, y := 0 } 5 ∧
      t2.points = [{ x := 1, y := 1 }] := by
  have h1 : (Box.init { x := 0, y := 0 } 5).contains_point
      { x := 1, y := 1 } = true := by
    rw [Box.contains_point_iff]
    norm_num [Box.init]
  have h2 : (Box.init { x := 0, y := 0 } 5).contains_point
      { x := -1, y := -2 } = true := by
    rw [Box.contains_point_iff]
    norm_num [Box.init]
  refine ⟨h1, h2, ?_⟩
  obtain ⟨t1, t2, c1, c2, c3, c4, e1, e2, hbox, hpts, -⟩ :=
    claim_C6 (Box.init { x := 0, y := 0 } 5) { x := 1, y := 1 }
      { x := -1, y := -2 } (by norm_num [Point.mk.injEq]) h1 h2
  exact ⟨t1, t2, e1, e2, hbox, hpts⟩

open PRQuadTree in
/-- Witness for C7: its three parts instantiated at a concrete tree, a
concrete insertion and a concrete node. -/
theorem claim_C7_witness :
    wf (.mk (Box.init { x := 0, y := 0 } 5) [{ x := 1, y := 1 }]
      none none none none) = true ∧
    wf (init (Box.init { x := 0, y := 0 } 5)) = true ∧
    ((init (Box.init { x := 0, y := 0 } 5)).points.length ≤ QT_NODE_CAPACITY ∧
      (∀ p ∈ allPoints (init (Box.init { x := 0, y := 0 } 5)),
        (init (Box.init { x := 0, y := 0 } 5)).box.contains_point p = true) ∧
      (((init (Box.init { x := 0, y := 0 } 5)).nw = none ∧
        (init (Box.init { x := 0, y := 0 } 5)).ne = none ∧
        (init (Box.init { x := 0, y := 0 } 5)).sw = none ∧
        (init (Box.init { x := 0, y := 0 } 5)).se = none) ∨
        (∃ a b c d, (init (Box.init { x := 0, y := 0 } 5)).nw = some a ∧
          (init (Box.init { x := 0, y := 0 } 5)).ne = some b ∧
          (init (Box.init { x := 0, y := 0 } 5)).sw = some c ∧
          (init (Box.init { x := 0, y := 0 } 5)).se = some d))) := by
  have hw : wf (init (Box.init { x := 0, y := 0 } 5)) = true :=
    wf_init (by norm_num [Box.init])
  have hc : (Box.init { x := 0, y := 0 } 5).contains_point
      { x := 1, y := 1 } = true := by
    rw [Box.contains_point_iff]
    norm_num [Box.init]
  refine ⟨?_, claim_C7.2.1 (Box.init { x := 0, y := 0 } 5)
    (by norm_num [Box.init]), ?_⟩
  · exact claim_C7.1 (init (Box.init { x := 0, y := 0 } 5)) 1 1
      (.mk (Box.init { x := 0, y := 0 } 5) [{ x := 1, y := 1 }]
        none none none none) (some true) hw
      (insert_below_capacity (Box.init { x := 0, y := 0 } 5) [] none none none
        none hc (by rw [QT_NODE_CAPACITY]; simp))
  · exact claim_C7.2.2 (init (Box.init { x := 0, y := 0 } 5)) hw
      (init (Box.init { x := 0, y := 0 } 5))
      (by rw [init, allNodes_leaf]; exact List.mem_singleton.2 rfl)

open PRQuadTree in
/-- Witness for C9 at a concrete tree and concrete query parameters. -/
theorem claim_C9_witness :
    wf (init (Box.init { x := 0, y := 0 } 5)) = true ∧
    ((∃ res, insert (init (Box.init { x := 0, y := 0 } 5)) 1 1 = some res) ∧
    (∃ l, query_range (init (Box.init { x := 0, y := 0 } 5))
      (Box.init { x := 2, y := 2 } 1) = some l) ∧
    (∃ m, query_k_nearest (init (Box.init { x := 0, y := 0 } 5))
      { x := 0, y := 0 } 3 = some m)) :=
  ⟨wf_init (by norm_num [Box.init]),
    claim_C9 (init (Box.init { x := 0, y := 0 } 5)) 1 1
      (Box.init { x := 2, y := 2 } 1) { x := 0, y := 0 } 3
      (wf_init (by norm_num [Box.init]))⟩

open PRQuadTree in
/-- Witness for C10 at a concrete tree and range, with both query results
obtained concretely. -/
theorem claim_C10_witness : some ([] : List Point) = some [] :=
  claim_C10 (init (Box.init { x := 0, y := 0 } 5))
    (Box.init { x := 20, y := 20 } 1) (some []) (some [])
    (query_range_not_intersect (Box.init { x := 0, y := 0 } 5) [] none none
      none none
      (by rw [← Bool.not_eq_true, Box.intersect_iff]; norm_num [Box.init]))
    (query_range_not_intersect (Box.init { x := 0, y := 0 } 5) [] none none
      none none
      (by rw [← Bool.not_eq_true, Box.intersect_iff]; norm_num [Box.init]))
